import Mathlib

/-!
Verification development for a small exam/question CRUD backend
(Express + Prisma, `index.js`).

The embedding models the Prisma record store as a list of records in the
store's default order.  Prisma primitives are modelled as list operations:
`findMany where` is `List.filter` by the where-clause predicate, `count where`
is the length of that filter, `skip`/`take` are `List.drop`/`List.take`,
`create` appends a record carrying the next serial identifier, and
`delete where id` removes the record with that identifier (the `id` column is
a `SERIAL` primary key, hence identifiers are positive and pairwise distinct;
well-formedness of a store is the predicate `WFStore`).

Case-insensitive substring matching (`contains, mode: 'insensitive'`) is
modelled by lower-casing both sides and asking for a list infix.
-/

namespace Epks

/-- An `Exam` record, following the Prisma `Exam` table: serial integer id and
the five data columns (the timestamp is kept as its serialized text). -/
structure Exam where
  id : Int
  name : String
  description : String
  venue : String
  time : String
  duration : Int
deriving Repr, DecidableEq

/-- The exam table in store order. -/
abbrev Store := List Exam

/-- Lower-cased character sequence of a string. -/
def lowerChars (s : String) : List Char :=
  s.data.map Char.toLower

/-- Case-insensitive substring test: models Prisma
`{ contains: needle, mode: 'insensitive' }` applied to `hay`. -/
def containsCI (hay needle : String) : Bool :=
  decide (lowerChars needle <:+: lowerChars hay)

/-- The OR-of-three-substrings filter used by the listing and export
endpoints: the filter text must occur case-insensitively in the name,
the description, or the venue. -/
def matchesFilter (f : String) (e : Exam) : Bool :=
  containsCI e.name f || containsCI e.description f || containsCI e.venue f

/-- The where-clauses the handlers build: empty clause (match all),
`id: { in: ids }`, or `id: k` (the zero-match branch sets `id: -1`). -/
inductive WhereClause where
  | all : WhereClause
  | idIn (ids : List Int) : WhereClause
  | idEq (k : Int) : WhereClause
deriving Repr, DecidableEq

/-- Whether an exam satisfies a where-clause. -/
def WhereClause.test : WhereClause → Exam → Bool
  | .all, _ => true
  | .idIn ids, e => ids.contains e.id
  | .idEq k, e => e.id == k

/-- GET `/exams` (and GET `/export/exams`) where-clause construction:
a falsy filter (absent or empty string) leaves the clause empty; otherwise a
first query collects every exam matching the OR-of-substrings filter, and the
clause becomes `id in` those ids, or `id = -1` when nothing matched. -/
def buildWhere (store : Store) (filter : Option String) : WhereClause :=
  match filter with
  | none => .all
  | some f =>
    if f = "" then .all
    else
      let examMatches := store.filter (matchesFilter f)
      if examMatches.length > 0 then .idIn (examMatches.map Exam.id)
      else .idEq (-1)

/-- The record set selected by the two-phase where-clause of GET `/exams`. -/
def matchedExams (store : Store) (filter : Option String) : Store :=
  store.filter (buildWhere store filter).test

/-- Response payload of GET `/exams`: the page of records plus metadata. -/
structure ExamsPage where
  items : List Exam
  totalRecords : Nat
  totalPages : Nat
  currentPage : Nat
deriving Repr, DecidableEq

/-- Ceiling division on naturals: models `Math.ceil(a / b)` for a natural
numerator and a positive natural denominator (the only case the handler
reaches with well-formed pagination parameters).  The theorem
`ceilDiv_eq_natCeil` below proves it equal to the mathematical ceiling. -/
def ceilDiv (a b : Nat) : Nat :=
  (a + b - 1) / b

/-- GET `/exams`: two-phase filter resolution, then a paged `findMany`
(`skip = (page-1)*limit`, `take = limit`) and a `count` under the same
where-clause; `totalPages` is `Math.ceil(totalRecords / limit)`. -/
def getExams (store : Store) (page limit : Nat) (filter : Option String) :
    ExamsPage :=
  let matched := matchedExams store filter
  { items := (matched.drop ((page - 1) * limit)).take limit
    totalRecords := matched.length
    totalPages := ceilDiv matched.length limit
    currentPage := page }

/-- Store well-formedness guaranteed by the `SERIAL` primary key:
identifiers are pairwise distinct and positive. -/
def WFStore (store : Store) : Prop :=
  (store.map Exam.id).Nodup ∧ ∀ e ∈ store, 0 < e.id

instance : DecidablePred WFStore := fun store =>
  inferInstanceAs
    (Decidable ((store.map Exam.id).Nodup ∧ ∀ e ∈ store, 0 < e.id))

/-- A multiple-choice option inside a question's `answer` array: a JSON
object carrying name and content strings. -/
structure AnswerOption where
  name : String
  content : String
deriving Repr, DecidableEq

/-- One element of a submitted `answer` array: either an object item, or a
JSON `null` — a value on which reading `option.name` throws a TypeError in
the handler's validation loop. -/
inductive AnswerItem where
  | nullItem : AnswerItem
  | obj (o : AnswerOption) : AnswerItem
deriving Repr, DecidableEq

/-- A `Question` record, following the Prisma `Question` table (the
`answer` column is the submitted JSONB array, stored verbatim). -/
structure Question where
  id : Int
  title : String
  content : String
  answer : List AnswerItem
  correctAnswer : String
deriving Repr, DecidableEq

/-- The question table plus the next serial identifier the store will
assign. -/
structure QStore where
  questions : List Question
  nextId : Int
deriving Repr, DecidableEq

/-- Request body of POST `/question`.  `answer = none` models a body whose
`answer` field is not an array (`Array.isArray` fails); a `name` or
`content` field that is missing in an object item is modelled the same as
the empty string — JavaScript treats both as falsy in the handler's
validation loop — while a `null` array element is the distinct
`AnswerItem.nullItem`. -/
structure QuestionBody where
  title : String
  content : String
  answer : Option (List AnswerItem)
  correctAnswer : String
deriving Repr, DecidableEq

/-- A worksheet cell of the spreadsheet export: an integer or a string. -/
inductive Cell where
  | i (n : Int) : Cell
  | s (v : String) : Cell
deriving Repr, DecidableEq

/-- Rendering of a worksheet cell as text. -/
def cellToString : Cell → String
  | .i n => toString n
  | .s v => v

/-- Bodies of the HTTP responses the modelled handlers produce.  `jsonError`
is a `\x7b error: msg \x7d` JSON object, `jsonMessage` a
`\x7b message: msg \x7d` object, `text` a bare (non-JSON-object) string body
as sent by `res.send(string)`, `xlsxBody` a binary workbook attachment, and
`csvBody` a CSV text attachment. -/
inductive RespBody where
  | jsonError (msg : String) : RespBody
  | jsonMessage (msg : String) : RespBody
  | jsonPage (page : ExamsPage) : RespBody
  | jsonExam (exam : Exam) : RespBody
  | jsonQuestion (q : Question) : RespBody
  | jsonUrl (url : String) : RespBody
  | text (s : String) : RespBody
  | xlsxBody (rows : List (List Cell)) : RespBody
  | csvBody (table : List (List String)) : RespBody
deriving Repr, DecidableEq

/-- An HTTP response: status code plus body. -/
structure Response where
  status : Nat
  body : RespBody
deriving Repr, DecidableEq

/-- Whether a response body has the documented error shape
(`\x7b error: string \x7d` or `\x7b message: string \x7d`). -/
def errorShaped : RespBody → Bool
  | .jsonError _ => true
  | .jsonMessage _ => true
  | _ => false

/-- Whether an answer item passes the handler's per-option check: it is an
object whose `name` and `content` are both truthy. -/
def goodItem : AnswerItem → Bool
  | .nullItem => false
  | .obj o => !(o.name = "" || o.content = "")

/-- The validation loop of POST `/question`, run inside the handler's
try/catch: items are visited in order; reading `option.name` on a `null`
item throws, and the catch answers 500 "Internal Server Error"; an object
item with a falsy `name` or `content` returns 400; when every item passes,
the loop falls through (`none`). -/
def validateAnswer : List AnswerItem → Option Response
  | [] => none
  | .nullItem :: _ => some ⟨500, .jsonError "Internal Server Error"⟩
  | .obj o :: rest =>
    if o.name = "" || o.content = "" then
      some ⟨400, .jsonError "Answer options are not in the expected format."⟩
    else validateAnswer rest

/-- POST `/question`: reject with 400 unless `answer` is an array of
exactly 4 items; then run the validation loop (which can answer 400 for a
falsy object field or 500 when a `null` item makes it throw); otherwise
persist one record (title, content, answer, correctAnswer) with the next
serial id and return it with status 201.  Returns the response together
with the store state after the call. -/
def postQuestion (st : QStore) (body : QuestionBody) : Response × QStore :=
  match body.answer with
  | none =>
    (⟨400, .jsonError "Answer array is not in the expected format."⟩, st)
  | some items =>
    if items.length ≠ 4 then
      (⟨400, .jsonError "Answer array is not in the expected format."⟩, st)
    else
      match validateAnswer items with
      | some resp => (resp, st)
      | none =>
        let q : Question :=
          ⟨st.nextId, body.title, body.content, items, body.correctAnswer⟩
        (⟨201, .jsonQuestion q⟩,
          ⟨st.questions ++ [q], st.nextId + 1⟩)

/-- DELETE `/exam/:id`: `findUnique` on the id; absent ⇒ 404 and no write;
present ⇒ `delete where id` (removing the unique record with that id) and a
200 message.  Returns the response together with the exam table after the
call. -/
def deleteExam (store : Store) (targetId : Int) : Response × Store :=
  match store.find? (fun e => e.id == targetId) with
  | none => (⟨404, .jsonMessage "Exam not found"⟩, store)
  | some _ =>
    (⟨200, .jsonMessage "Exam deleted successfully"⟩,
      store.filter (fun e => !(e.id == targetId)))

/-- Request body of POST `/exams` as the store's `create` sees it: each
required column may be present or absent, and `unknownKeys` lists any fields
of the JSON body that are not columns of the `Exam` table. -/
structure ExamBody where
  name : Option String
  description : Option String
  venue : Option String
  time : Option String
  duration : Option Int
  unknownKeys : List String
deriving Repr, DecidableEq

/-- Models the external Prisma `exam.create` call (the store is an external
collaborator; per the schema all columns except `id` are required): it
rejects a body with unknown keys or a missing required column with an error
message of its own, and otherwise inserts a record with the next serial
id. -/
def examCreate (nextId : Int) (body : ExamBody) : Except String Exam :=
  if body.unknownKeys ≠ [] then
    .error "Unknown argument in create call."
  else
    match body.name, body.description, body.venue, body.time,
        body.duration with
    | some n, some d, some v, some t, some du =>
      .ok ⟨nextId, n, d, v, t, du⟩
    | _, _, _, _, _ =>
      .error "Missing a required argument in create call."

/-- POST `/exams`: pass `req.body` verbatim to the store's `create`; on
success return the created record as JSON, on any store error return 500
with the store's error message.  The store call is a parameter so the
theorem quantifies over every store behaviour. -/
def postExams (create : ExamBody → Except String Exam) (body : ExamBody) :
    Response :=
  match create body with
  | .ok exam => ⟨200, .jsonExam exam⟩
  | .error msg => ⟨500, .jsonError msg⟩

/-- GET `/export/exams` record selection: the same two-phase where-clause
construction as GET `/exams` (resolve the filter into an id set, then query
again with `id in` that set), with no pagination. -/
def exportExams (store : Store) (filter : Option String) : Store :=
  store.filter (buildWhere store filter).test

/-- GET `/export/exams/csv` where-clause: the OR-of-substrings predicate is
applied directly in a single `findMany` (no id-set resolution). -/
def csvWhereTest (filter : Option String) (e : Exam) : Bool :=
  match filter with
  | none => true
  | some f => if f = "" then true else matchesFilter f e

/-- GET `/export/exams/csv` record selection. -/
def csvExams (store : Store) (filter : Option String) : Store :=
  store.filter (csvWhereTest filter)

/-- The `worksheet.columns` definition of the spreadsheet export:
header caption and record key of the four fixed columns, in order. -/
def sheetColumns : List (String × String) :=
  [("ID", "id"), ("Name", "name"), ("Description", "description"),
    ("Venue", "venue")]

/-- One worksheet row, as `worksheet.addRows` fills it: the record's values
at the four column keys. -/
def sheetRow (e : Exam) : List Cell :=
  [.i e.id, .s e.name, .s e.description, .s e.venue]

/-- The data rows of the spreadsheet export. -/
def sheetRows (exams : List Exam) : List (List Cell) :=
  exams.map sheetRow

/-- The header row `Papa.unparse` derives from the keys of the exam records
(the Prisma column order of the `Exam` table). -/
def csvKeys : List String :=
  ["id", "name", "description", "venue", "time", "duration"]

/-- One CSV data row: every field of the record, rendered as text. -/
def csvRow (e : Exam) : List String :=
  [toString e.id, e.name, e.description, e.venue, e.time, toString e.duration]

/-- The CSV table produced by `Papa.unparse`: header row then one row per
record. -/
def csvTable (exams : List Exam) : List (List String) :=
  csvKeys :: exams.map csvRow

/-- Index (from the front) of the last `'.'` of a character list, if any. -/
def lastDotIdx (l : List Char) : Option Nat :=
  match l.reverse.findIdx? (· = '.') with
  | none => none
  | some d => some (l.length - 1 - d)

/-- `path.extname` on a bare file name (no directory separators): the part
from the last dot on, except that a name with no dot, or whose only dot is
the leading character (a dotfile), has no extension; the two-character name
".." is the one further case Node answers with no extension. -/
def extnameChars (l : List Char) : List Char :=
  if l = ['.', '.'] then []
  else
    match lastDotIdx l with
    | none => []
    | some 0 => []
    | some i => l.drop i

/-- Removal of the first occurrence of `pat`: JavaScript
`s.replace(pat, "")` with a string pattern rewrites only the first
occurrence (and an empty pattern matches at position 0, leaving `s`
unchanged when the replacement is empty). -/
def removeFirst : List Char → List Char → List Char
  | [], _ => []
  | c :: rest, pat =>
    if pat.isPrefixOf (c :: rest) then (c :: rest).drop pat.length
    else c :: removeFirst rest pat

/-- The stored name the multer disk-storage callback assigns:
`originalname.replace(fileExt, "") + "-" + Date.now() + fileExt`, with
`fileExt = path.extname(originalname)` and `Date.now()` passed in as
`now`. -/
def uploadFilename (originalname : String) (now : Nat) : String :=
  let fileExt := extnameChars originalname.data
  String.mk (removeFirst originalname.data fileExt) ++ "-" ++ toString now
    ++ String.mk fileExt

/-- Stated from the claim's words, for comparison with the code: the
original base name is the original name with its (trailing) extension
removed. -/
def specBaseName (s : String) : String :=
  String.mk (s.data.take (s.data.length - (extnameChars s.data).length))

/-- The file as the handler sees it after multer stored it. -/
structure UploadedFile where
  originalname : String
  filename : String
deriving Repr, DecidableEq

/-- POST `/upload-image`: with a stored file, respond 200 with the URL of
the fixed uploads directory joined with the stored name; with no file,
`res.status(400).send("Upload failed")` — a bare string body. -/
def uploadImage (file : Option UploadedFile) : Response :=
  match file with
  | some f => ⟨200, .jsonUrl ("http://localhost:3000/uploads/" ++ f.filename)⟩
  | none => ⟨400, .text "Upload failed"⟩

/-- GET `/exams` as a route: the handler's catch answers 500 with the
failing store call's message (`storeErr`, external); otherwise the JSON
page is returned with 200. -/
def getExamsRoute (storeErr : Option String) (store : Store)
    (page limit : Nat) (filter : Option String) : Response :=
  match storeErr with
  | some msg => ⟨500, .jsonError msg⟩
  | none => ⟨200, .jsonPage (getExams store page limit filter)⟩

/-- GET `/export/exams` as a route: catch answers 500 with the failure
message; otherwise the workbook attachment is delivered with 200. -/
def exportExamsRoute (storeErr : Option String) (store : Store)
    (filter : Option String) : Response :=
  match storeErr with
  | some msg => ⟨500, .jsonError msg⟩
  | none => ⟨200, .xlsxBody (sheetRows (exportExams store filter))⟩

/-- GET `/export/exams/csv` as a route: catch answers 500 with the failure
message; otherwise the CSV attachment is delivered with 200. -/
def csvExportRoute (storeErr : Option String) (store : Store)
    (filter : Option String) : Response :=
  match storeErr with
  | some msg => ⟨500, .jsonError msg⟩
  | none => ⟨200, .csvBody (csvTable (csvExams store filter))⟩

/-- DELETE `/exam/:id` as a route: the handler's catch answers 500 with the
fixed message "Internal Server Error"; otherwise the handler's own
response (404 or 200) is returned. -/
def deleteExamRoute (storeErr : Option String) (store : Store)
    (targetId : Int) : Response :=
  match storeErr with
  | some _ => ⟨500, .jsonMessage "Internal Server Error"⟩
  | none => (deleteExam store targetId).1

/-- A JavaScript number as the pagination arithmetic needs it: a rational
value or `NaN`. -/
inductive JSNum where
  | num (q : ℚ) : JSNum
  | nan : JSNum
deriving Repr, DecidableEq

/-- JavaScript subtraction: `NaN` absorbs. -/
def jsSub : JSNum → JSNum → JSNum
  | .num a, .num b => .num (a - b)
  | _, _ => .nan

/-- JavaScript multiplication: `NaN` absorbs. -/
def jsMul : JSNum → JSNum → JSNum
  | .num a, .num b => .num (a * b)
  | _, _ => .nan

/-- The `skip` and `take` arguments GET `/exams` hands to the store. -/
structure ExamsQuery where
  skip : JSNum
  take : JSNum
deriving Repr, DecidableEq

/-- A defaulted query parameter: an absent parameter takes the numeric
default, a present one goes through `Number(...)` (the `coerce`
parameter). -/
def coerceOr (coerce : String → JSNum) (dflt : ℚ) (q : Option String) :
    JSNum :=
  match q with
  | none => .num dflt
  | some s => coerce s

/-- The raw pagination pipeline of GET `/exams`, before any store call:
`page` defaults to the number 1 and `limit` to 10 when the query parameter
is absent, a present parameter is coerced by `Number(...)` (passed in as
`coerce`), and the store query receives `skip = (page - 1) * limit` and
`take = limit` with no guard, clamp, or rejection. -/
def examsStoreQuery (coerce : String → JSNum) (page limit : Option String) :
    ExamsQuery :=
  let pageNumber := coerceOr coerce 1 page
  let pageSize := coerceOr coerce 10 limit
  { skip := jsMul (jsSub pageNumber (JSNum.num 1)) pageSize
    take := pageSize }

/-- The documented response contract of a handler: either a success status
(200 or 201), or an error-shaped JSON body (`errorShaped`) with one of the
statuses 400, 404, 500. -/
def respOk (r : Response) : Prop :=
  (r.status = 200 ∨ r.status = 201) ∨
    (errorShaped r.body = true ∧
      (r.status = 400 ∨ r.status = 404 ∨ r.status = 500))

/-- Numeric value of a decimal digit character. -/
def charVal (c : Char) : Nat :=
  c.toNat - 48

/-- The number denoted by a list of decimal digit characters (most
significant first); a left inverse of the decimal rendering, used to show
that distinct timestamps give distinct stored filenames. -/
def digitsToNat (l : List Char) : Nat :=
  l.foldl (fun a c => 10 * a + charVal c) 0

/-! ### Helper lemmas -/

lemma wf_id_inj {store : Store} (hW : WFStore store) {e e' : Exam}
    (he : e ∈ store) (he' : e' ∈ store) (hid : e.id = e'.id) : e = e' :=
  List.inj_on_of_nodup_map hW.1 he he' hid

lemma contains_filter_map_id {store : Store} (p : Exam → Bool) {e : Exam}
    (hW : WFStore store) (he : e ∈ store) :
    ((store.filter p).map Exam.id).contains e.id = p e := by
  cases hpe : p e with
  | false =>
    refine Bool.eq_false_iff.mpr fun hc => ?_
    obtain ⟨k, hk, hbeq⟩ := List.contains_iff_exists_mem_beq.mp hc
    obtain ⟨x, hx, hxid⟩ := List.mem_map.mp hk
    obtain ⟨hxs, hpx⟩ := List.mem_filter.mp hx
    have hbe : e.id = k := by simpa using hbeq
    have : x = e := wf_id_inj hW hxs he (by rw [hxid, hbe])
    rw [this] at hpx
    rw [hpx] at hpe
    exact Bool.true_eq_false.mp hpe
  | true =>
    apply List.contains_iff_exists_mem_beq.mpr
    refine ⟨e.id, List.mem_map.mpr ⟨e, List.mem_filter.mpr ⟨he, hpe⟩, rfl⟩, ?_⟩
    simp

lemma matchedExams_none (store : Store) : matchedExams store none = store := by
  simp [matchedExams, buildWhere, WhereClause.test]

lemma matchedExams_empty (store : Store) :
    matchedExams store (some "") = store := by
  simp [matchedExams, buildWhere, WhereClause.test]

lemma matchedExams_filter {store : Store} {f : String} (hW : WFStore store)
    (hf : f ≠ "") :
    matchedExams store (some f) = store.filter (matchesFilter f) := by
  unfold matchedExams buildWhere
  simp only [if_neg hf]
  by_cases hpos : (store.filter (matchesFilter f)).length > 0
  · simp only [if_pos hpos, WhereClause.test]
    exact List.filter_congr fun e he => contains_filter_map_id _ hW he
  · simp only [if_neg hpos, WhereClause.test]
    have hnil : store.filter (matchesFilter f) = [] := by
      cases h : store.filter (matchesFilter f) with
      | nil => rfl
      | cons a l => rw [h] at hpos; simp at hpos
    rw [hnil]
    refine List.filter_eq_nil_iff.mpr fun e he => ?_
    have hpos' := hW.2 e he
    simp only [WhereClause.test, beq_iff_eq]
    omega

/-- C1: the filter query parameter of GET `/exams` resolves to match-all when
absent or empty; a non-empty filter selects exactly the exams matching the
case-insensitive OR-of-substrings predicate; and a filter matching zero
records yields an empty item list and a zero total, not an error. -/
theorem C1_filter_resolution (store : Store) (f : String)
    (hW : WFStore store) :
    matchedExams store none = store ∧
    matchedExams store (some "") = store ∧
    (f ≠ "" → matchedExams store (some f) = store.filter (matchesFilter f)) ∧
    (f ≠ "" → store.filter (matchesFilter f) = [] →
      ∀ page limit : Nat,
        (getExams store page limit (some f)).items = [] ∧
        (getExams store page limit (some f)).totalRecords = 0) := by
  refine ⟨matchedExams_none store, matchedExams_empty store,
    fun hf => matchedExams_filter hW hf, fun hf hnil page limit => ?_⟩
  have hm : matchedExams store (some f) = [] := by
    rw [matchedExams_filter hW hf, hnil]
  constructor
  · simp [getExams, hm]
  · simp [getExams, hm]

/-- Witness for C1 on a concrete store: the filter "Venue-7" matches by
venue and by description, and the filter "zzz" matches nothing. -/
theorem C1_filter_resolution_witness :
    matchedExams [⟨1, "Exam-1", "Desc one", "Venue-7", "t", 60⟩,
        ⟨2, "Exam-2", "has venue-7 inside", "Hall", "t", 30⟩,
        ⟨3, "Other", "x", "y", "t", 10⟩] none =
      [⟨1, "Exam-1", "Desc one", "Venue-7", "t", 60⟩,
        ⟨2, "Exam-2", "has venue-7 inside", "Hall", "t", 30⟩,
        ⟨3, "Other", "x", "y", "t", 10⟩] ∧
    matchedExams [⟨1, "Exam-1", "Desc one", "Venue-7", "t", 60⟩,
        ⟨2, "Exam-2", "has venue-7 inside", "Hall", "t", 30⟩,
        ⟨3, "Other", "x", "y", "t", 10⟩] (some "") =
      [⟨1, "Exam-1", "Desc one", "Venue-7", "t", 60⟩,
        ⟨2, "Exam-2", "has venue-7 inside", "Hall", "t", 30⟩,
        ⟨3, "Other", "x", "y", "t", 10⟩] ∧
    matchedExams [⟨1, "Exam-1", "Desc one", "Venue-7", "t", 60⟩,
        ⟨2, "Exam-2", "has venue-7 inside", "Hall", "t", 30⟩,
        ⟨3, "Other", "x", "y", "t", 10⟩] (some "Venue-7") =
      [⟨1, "Exam-1", "Desc one", "Venue-7", "t", 60⟩,
        ⟨2, "Exam-2", "has venue-7 inside", "Hall", "t", 30⟩].filter
          (matchesFilter "Venue-7") ++
        [⟨1, "Exam-1", "Desc one", "Venue-7", "t", 60⟩,
          ⟨2, "Exam-2", "has venue-7 inside", "Hall", "t", 30⟩,
          ⟨3, "Other", "x", "y", "t", 10⟩].filter (matchesFilter "nothing") ∧
    (getExams [⟨1, "Exam-1", "Desc one", "Venue-7", "t", 60⟩,
        ⟨2, "Exam-2", "has venue-7 inside", "Hall", "t", 30⟩,
        ⟨3, "Other", "x", "y", "t", 10⟩] 1 10 (some "zzz")).items = [] ∧
    (getExams [⟨1, "Exam-1", "Desc one", "Venue-7", "t", 60⟩,
        ⟨2, "Exam-2", "has venue-7 inside", "Hall", "t", 30⟩,
        ⟨3, "Other", "x", "y", "t", 10⟩] 1 10 (some "zzz")).totalRecords =
      0 := by
  have h1 := C1_filter_resolution
    [⟨1, "Exam-1", "Desc one", "Venue-7", "t", 60⟩,
      ⟨2, "Exam-2", "has venue-7 inside", "Hall", "t", 30⟩,
      ⟨3, "Other", "x", "y", "t", 10⟩] "Venue-7" (by decide)
  have h2 := C1_filter_resolution
    [⟨1, "Exam-1", "Desc one", "Venue-7", "t", 60⟩,
      ⟨2, "Exam-2", "has venue-7 inside", "Hall", "t", 30⟩,
      ⟨3, "Other", "x", "y", "t", 10⟩] "zzz" (by decide)
  obtain ⟨hz1, hz2⟩ := h2.2.2.2 (by decide) (by decide) 1 10
  refine ⟨h1.1, h1.2.1, ?_, hz1, hz2⟩
  rw [h1.2.2.1 (by decide)]
  decide

lemma ceilDiv_eq_natCeil (a s : Nat) (hs : 1 ≤ s) :
    ceilDiv a s = ⌈(a : ℚ) / (s : ℚ)⌉₊ := by
  have hs0 : (0 : ℚ) < (s : ℚ) := by exact_mod_cast hs
  apply le_antisymm
  · have hx : ((a : ℚ) / s) ≤ (⌈(a : ℚ) / (s : ℚ)⌉₊ : ℚ) := Nat.le_ceil _
    have hxa : (a : ℚ) ≤ (⌈(a : ℚ) / (s : ℚ)⌉₊ : ℚ) * s := by
      rwa [div_le_iff₀ hs0] at hx
    have hna : a ≤ ⌈(a : ℚ) / (s : ℚ)⌉₊ * s := by exact_mod_cast hxa
    have hlt : a + s - 1 < (⌈(a : ℚ) / (s : ℚ)⌉₊ + 1) * s := by
      have hms : (⌈(a : ℚ) / (s : ℚ)⌉₊ + 1) * s = ⌈(a : ℚ) / (s : ℚ)⌉₊ * s + s := by
        ring
      omega
    have hdiv := (Nat.div_lt_iff_lt_mul (show 0 < s by omega)).mpr hlt
    exact Nat.lt_succ_iff.mp hdiv
  · apply Nat.ceil_le.mpr
    rw [div_le_iff₀ hs0]
    have h1 : a ≤ ceilDiv a s * s := by
      unfold ceilDiv
      rw [Nat.mul_comm]
      have hdm := Nat.div_add_mod (a + s - 1) s
      have hml : (a + s - 1) % s < s := Nat.mod_lt _ (by omega)
      omega
    exact_mod_cast h1

/-- C2: GET `/exams` returns the slice of the matching records in store
order that skips `(page-1)*limit` records and takes `limit` of them, with
`totalRecords` the matching count, `totalPages` the ceiling of
`totalRecords / limit`, and `currentPage` echoing the page number. -/
theorem C2_pagination (store : Store) (page limit : Nat)
    (filter : Option String) (hp : 1 ≤ page) (hl : 1 ≤ limit) :
    (getExams store page limit filter).currentPage = page ∧
    (getExams store page limit filter).totalRecords =
      (matchedExams store filter).length ∧
    (getExams store page limit filter).totalPages =
      ⌈((matchedExams store filter).length : ℚ) / (limit : ℚ)⌉₊ ∧
    (getExams store page limit filter).items.length =
      min limit ((matchedExams store filter).length - (page - 1) * limit) ∧
    ∀ i : Nat, i < limit →
      (getExams store page limit filter).items[i]? =
        (matchedExams store filter)[(page - 1) * limit + i]? := by
  have hitems : (getExams store page limit filter).items =
      ((matchedExams store filter).drop ((page - 1) * limit)).take limit := rfl
  refine ⟨rfl, rfl, ceilDiv_eq_natCeil _ _ hl, ?_, ?_⟩
  · rw [hitems, List.length_take, List.length_drop]
  · intro i hi
    rw [hitems, List.getElem?_take_of_lt hi, List.getElem?_drop]

/-- Witness for C2: page 2 with limit 2 over a 3-record store holds the
third record; the metadata matches. -/
theorem C2_pagination_witness :
    (getExams [⟨1, "A", "d", "v", "t", 60⟩, ⟨2, "B", "d", "v", "t", 30⟩,
        ⟨3, "C", "d", "v", "t", 10⟩] 2 2 none).currentPage = 2 ∧
    (getExams [⟨1, "A", "d", "v", "t", 60⟩, ⟨2, "B", "d", "v", "t", 30⟩,
        ⟨3, "C", "d", "v", "t", 10⟩] 2 2 none).totalRecords =
      (matchedExams [⟨1, "A", "d", "v", "t", 60⟩, ⟨2, "B", "d", "v", "t", 30⟩,
        ⟨3, "C", "d", "v", "t", 10⟩] none).length ∧
    (getExams [⟨1, "A", "d", "v", "t", 60⟩, ⟨2, "B", "d", "v", "t", 30⟩,
        ⟨3, "C", "d", "v", "t", 10⟩] 2 2 none).totalPages =
      ⌈((matchedExams [⟨1, "A", "d", "v", "t", 60⟩, ⟨2, "B", "d", "v", "t", 30⟩,
        ⟨3, "C", "d", "v", "t", 10⟩] none).length : ℚ) / (2 : ℚ)⌉₊ ∧
    (getExams [⟨1, "A", "d", "v", "t", 60⟩, ⟨2, "B", "d", "v", "t", 30⟩,
        ⟨3, "C", "d", "v", "t", 10⟩] 2 2 none).items.length =
      min 2 ((matchedExams [⟨1, "A", "d", "v", "t", 60⟩,
        ⟨2, "B", "d", "v", "t", 30⟩,
        ⟨3, "C", "d", "v", "t", 10⟩] none).length - (2 - 1) * 2) := by
  have h := C2_pagination [⟨1, "A", "d", "v", "t", 60⟩,
    ⟨2, "B", "d", "v", "t", 30⟩, ⟨3, "C", "d", "v", "t", 10⟩] 2 2 none
    (by decide) (by decide)
  exact ⟨h.1, h.2.1, h.2.2.1, h.2.2.2.1⟩

lemma validateAnswer_append_good :
    ∀ (pre rest : List AnswerItem), (∀ it ∈ pre, goodItem it = true) →
      validateAnswer (pre ++ rest) = validateAnswer rest := by
  intro pre
  induction pre with
  | nil => intro rest _; rfl
  | cons a t ih =>
    intro rest hgood
    have ha := hgood a (by simp)
    cases a with
    | nullItem => simp [goodItem] at ha
    | obj o =>
      have hno : (o.name = "" || o.content = "" : Bool) = false := by
        simpa [goodItem] using ha
      simp only [List.cons_append, validateAnswer, hno, Bool.false_eq_true,
        if_false]
      exact ih rest fun it hit => hgood it (by simp [hit])

lemma validateAnswer_all_good :
    ∀ items : List AnswerItem, (∀ it ∈ items, goodItem it = true) →
      validateAnswer items = none := by
  intro items hgood
  have h := validateAnswer_append_good items [] hgood
  simpa using h

lemma validateAnswer_some :
    ∀ (items : List AnswerItem) (resp : Response),
      validateAnswer items = some resp →
      resp = ⟨500, .jsonError "Internal Server Error"⟩ ∨
      resp = ⟨400,
        .jsonError "Answer options are not in the expected format."⟩ := by
  intro items
  induction items with
  | nil =>
    intro resp h
    exact absurd h (by simp [validateAnswer])
  | cons a t ih =>
    intro resp h
    cases a with
    | nullItem =>
      simp only [validateAnswer] at h
      exact Or.inl (Option.some.inj h).symm
    | obj o =>
      simp only [validateAnswer] at h
      split at h
      · exact Or.inr (Option.some.inj h).symm
      · exact ih resp h

/-- Counterexample to C3 as stated: a 4-element answer whose first item is
`null` (an item plainly lacking a non-empty name) makes the validation loop
throw on `option.name`; the catch answers 500 "Internal Server Error", not
the claimed 400. -/
theorem C3_counterexample :
    (postQuestion ⟨[], 1⟩ ⟨"t", "c",
      some [.nullItem, .obj ⟨"B", "y"⟩, .obj ⟨"C", "z"⟩, .obj ⟨"D", "w"⟩],
      "A"⟩).1 = ⟨500, .jsonError "Internal Server Error"⟩ ∧
    (postQuestion ⟨[], 1⟩ ⟨"t", "c",
      some [.nullItem, .obj ⟨"B", "y"⟩, .obj ⟨"C", "z"⟩, .obj ⟨"D", "w"⟩],
      "A"⟩).1.status ≠ 400 ∧
    (postQuestion ⟨[], 1⟩ ⟨"t", "c",
      some [.nullItem, .obj ⟨"B", "y"⟩, .obj ⟨"C", "z"⟩, .obj ⟨"D", "w"⟩],
      "A"⟩).2 = ⟨[], 1⟩ := by
  exact ⟨rfl, by decide, rfl⟩

/-- C3 amended: POST `/question` rejects with 400 and writes nothing when
`answer` is not an array of exactly 4 items, or when the first offending
item of the validation loop is an object with an empty name or content; when
the first offending item is a `null`, the loop throws and the handler
answers 500 "Internal Server Error", still writing nothing; with 4
well-formed object items it persists exactly one record under the next
serial identifier and returns it, the stored answer equal to the submitted
one. -/
theorem C3_question_validation (st : QStore) (body : QuestionBody) :
    (body.answer = none →
      (postQuestion st body).1.status = 400 ∧
        (postQuestion st body).2 = st) ∧
    (∀ items : List AnswerItem, body.answer = some items →
      items.length ≠ 4 →
      (postQuestion st body).1.status = 400 ∧
        (postQuestion st body).2 = st) ∧
    (∀ (items pre post : List AnswerItem) (o : AnswerOption),
      body.answer = some items → items = pre ++ .obj o :: post →
      items.length = 4 → (∀ it ∈ pre, goodItem it = true) →
      (o.name = "" ∨ o.content = "") →
      (postQuestion st body).1.status = 400 ∧
        (postQuestion st body).2 = st) ∧
    (∀ (items pre post : List AnswerItem),
      body.answer = some items → items = pre ++ .nullItem :: post →
      items.length = 4 → (∀ it ∈ pre, goodItem it = true) →
      (postQuestion st body).1 =
        ⟨500, .jsonError "Internal Server Error"⟩ ∧
        (postQuestion st body).2 = st) ∧
    (∀ items : List AnswerItem, body.answer = some items →
      items.length = 4 → (∀ it ∈ items, goodItem it = true) →
      (postQuestion st body).1 =
        ⟨201, .jsonQuestion ⟨st.nextId, body.title, body.content, items,
          body.correctAnswer⟩⟩ ∧
      (postQuestion st body).2.questions =
        st.questions ++ [⟨st.nextId, body.title, body.content, items,
          body.correctAnswer⟩]) := by
  refine ⟨?_, ?_, ?_, ?_, ?_⟩
  · intro h
    have heq : postQuestion st body =
        (⟨400, .jsonError "Answer array is not in the expected format."⟩,
          st) := by
      unfold postQuestion; rw [h]
    rw [heq]
    exact ⟨rfl, rfl⟩
  · intro items hi hlen
    have heq : postQuestion st body =
        (⟨400, .jsonError "Answer array is not in the expected format."⟩,
          st) := by
      unfold postQuestion; rw [hi]; simp [hlen]
    rw [heq]
    exact ⟨rfl, rfl⟩
  · intro items pre post o hi hsplit hlen hgood hbad
    have hcond : (o.name = "" || o.content = "" : Bool) = true := by
      rcases hbad with h | h <;> simp [h]
    have hv : validateAnswer items =
        some ⟨400,
          .jsonError "Answer options are not in the expected format."⟩ := by
      rw [hsplit, validateAnswer_append_good pre _ hgood]
      simp [validateAnswer, hcond]
    have heq : postQuestion st body =
        (⟨400, .jsonError "Answer options are not in the expected format."⟩,
          st) := by
      unfold postQuestion; rw [hi]; simp [hlen, hv]
    rw [heq]
    exact ⟨rfl, rfl⟩
  · intro items pre post hi hsplit hlen hgood
    have hv : validateAnswer items =
        some ⟨500, .jsonError "Internal Server Error"⟩ := by
      rw [hsplit, validateAnswer_append_good pre _ hgood]
      rfl
    have heq : postQuestion st body =
        (⟨500, .jsonError "Internal Server Error"⟩, st) := by
      unfold postQuestion; rw [hi]; simp [hlen, hv]
    rw [heq]
    exact ⟨rfl, rfl⟩
  · intro items hi hlen hgood
    have hv : validateAnswer items = none :=
      validateAnswer_all_good items hgood
    have heq : postQuestion st body =
        (⟨201, .jsonQuestion ⟨st.nextId, body.title, body.content, items,
            body.correctAnswer⟩⟩,
          ⟨st.questions ++ [⟨st.nextId, body.title, body.content, items,
            body.correctAnswer⟩], st.nextId + 1⟩) := by
      unfold postQuestion; rw [hi]; simp [hlen, hv]
    rw [heq]
    exact ⟨rfl, rfl⟩

/-- Witness for C3 amended: a 3-item answer and an answer with an empty
content are rejected with 400; a 4-item answer with a null first item is
answered 500; 4 well-formed options are persisted and returned; the store
is untouched in every failure case. -/
theorem C3_question_validation_witness :
    (postQuestion ⟨[], 1⟩ ⟨"t", "c",
      some [.obj ⟨"A", "x"⟩, .obj ⟨"B", "y"⟩, .obj ⟨"C", "z"⟩],
      "A"⟩).1.status = 400 ∧
    (postQuestion ⟨[], 1⟩ ⟨"t", "c",
      some [.obj ⟨"A", "x"⟩, .obj ⟨"B", "y"⟩, .obj ⟨"C", "z"⟩],
      "A"⟩).2 = ⟨[], 1⟩ ∧
    (postQuestion ⟨[], 1⟩ ⟨"t", "c",
      some [.obj ⟨"A", "x"⟩, .obj ⟨"B", "y"⟩, .obj ⟨"C", "z"⟩,
        .obj ⟨"D", ""⟩], "A"⟩).1.status = 400 ∧
    (postQuestion ⟨[], 1⟩ ⟨"t", "c",
      some [.obj ⟨"A", "x"⟩, .obj ⟨"B", "y"⟩, .obj ⟨"C", "z"⟩,
        .obj ⟨"D", ""⟩], "A"⟩).2 = ⟨[], 1⟩ ∧
    (postQuestion ⟨[], 1⟩ ⟨"t", "c",
      some [.obj ⟨"A", "x"⟩, .nullItem, .obj ⟨"C", "z"⟩, .obj ⟨"D", "w"⟩],
      "A"⟩).1 = ⟨500, .jsonError "Internal Server Error"⟩ ∧
    (postQuestion ⟨[], 1⟩ ⟨"t", "c",
      some [.obj ⟨"A", "x"⟩, .obj ⟨"B", "y"⟩, .obj ⟨"C", "z"⟩,
        .obj ⟨"D", "w"⟩], "A"⟩).1 =
      ⟨201, .jsonQuestion ⟨1, "t", "c",
        [.obj ⟨"A", "x"⟩, .obj ⟨"B", "y"⟩, .obj ⟨"C", "z"⟩,
          .obj ⟨"D", "w"⟩], "A"⟩⟩ ∧
    (postQuestion ⟨[], 1⟩ ⟨"t", "c",
      some [.obj ⟨"A", "x"⟩, .obj ⟨"B", "y"⟩, .obj ⟨"C", "z"⟩,
        .obj ⟨"D", "w"⟩], "A"⟩).2.questions =
      [] ++ [⟨1, "t", "c",
        [.obj ⟨"A", "x"⟩, .obj ⟨"B", "y"⟩, .obj ⟨"C", "z"⟩,
          .obj ⟨"D", "w"⟩], "A"⟩] := by
  have h1 := (C3_question_validation ⟨[], 1⟩ ⟨"t", "c",
    some [.obj ⟨"A", "x"⟩, .obj ⟨"B", "y"⟩, .obj ⟨"C", "z"⟩], "A"⟩).2.1
    [.obj ⟨"A", "x"⟩, .obj ⟨"B", "y"⟩, .obj ⟨"C", "z"⟩] rfl (by decide)
  have h2 := (C3_question_validation ⟨[], 1⟩ ⟨"t", "c",
    some [.obj ⟨"A", "x"⟩, .obj ⟨"B", "y"⟩, .obj ⟨"C", "z"⟩,
      .obj ⟨"D", ""⟩], "A"⟩).2.2.1
    [.obj ⟨"A", "x"⟩, .obj ⟨"B", "y"⟩, .obj ⟨"C", "z"⟩, .obj ⟨"D", ""⟩]
    [.obj ⟨"A", "x"⟩, .obj ⟨"B", "y"⟩, .obj ⟨"C", "z"⟩] [] ⟨"D", ""⟩
    rfl rfl (by decide) (by decide) (Or.inr rfl)
  have h3 := (C3_question_validation ⟨[], 1⟩ ⟨"t", "c",
    some [.obj ⟨"A", "x"⟩, .nullItem, .obj ⟨"C", "z"⟩, .obj ⟨"D", "w"⟩],
      "A"⟩).2.2.2.1
    [.obj ⟨"A", "x"⟩, .nullItem, .obj ⟨"C", "z"⟩, .obj ⟨"D", "w"⟩]
    [.obj ⟨"A", "x"⟩] [.obj ⟨"C", "z"⟩, .obj ⟨"D", "w"⟩]
    rfl rfl (by decide) (by decide)
  have h4 := (C3_question_validation ⟨[], 1⟩ ⟨"t", "c",
    some [.obj ⟨"A", "x"⟩, .obj ⟨"B", "y"⟩, .obj ⟨"C", "z"⟩,
      .obj ⟨"D", "w"⟩], "A"⟩).2.2.2.2
    [.obj ⟨"A", "x"⟩, .obj ⟨"B", "y"⟩, .obj ⟨"C", "z"⟩, .obj ⟨"D", "w"⟩]
    rfl (by decide) (by decide)
  exact ⟨h1.1, h1.2, h2.1, h2.2, h3.1, h4.1, h4.2⟩

lemma length_filter_partition (t : Int) (l : Store) :
    (l.filter (fun e => e.id == t)).length +
      (l.filter (fun e => !(e.id == t))).length = l.length := by
  induction l with
  | nil => rfl
  | cons a l ih =>
    cases h : (a.id == t) <;> simp only [List.filter_cons, h] <;> simp <;>
      omega

lemma nodup_all_eq_length_le_one {l : List Int} (h : l.Nodup) (t : Int)
    (hall : ∀ x ∈ l, x = t) : l.length ≤ 1 := by
  match l with
  | [] => simp
  | [a] => simp
  | a :: b :: rest =>
    have ha := hall a (by simp)
    have hb := hall b (by simp)
    rw [List.nodup_cons] at h
    exact absurd (by simp [ha.trans hb.symm]) h.1

lemma length_filter_id_eq_one {store : Store} (hW : WFStore store)
    {ex : Exam} (hex : ex ∈ store) {t : Int} (hid : ex.id = t) :
    (store.filter (fun e => e.id == t)).length = 1 := by
  apply le_antisymm
  · have hsub : List.Sublist
        ((store.filter (fun e => e.id == t)).map Exam.id)
        (store.map Exam.id) :=
      (List.filter_sublist store).map Exam.id
    have hnd : ((store.filter (fun e => e.id == t)).map Exam.id).Nodup :=
      hW.1.sublist hsub
    have hall : ∀ x ∈ (store.filter (fun e => e.id == t)).map Exam.id,
        x = t := by
      intro x hx
      obtain ⟨e, he, hxe⟩ := List.mem_map.mp hx
      have := (List.mem_filter.mp he).2
      rw [← hxe]
      simpa using this
    have := nodup_all_eq_length_le_one hnd t hall
    simpa using this
  · have : ex ∈ store.filter (fun e => e.id == t) :=
      List.mem_filter.mpr ⟨hex, by simp [hid]⟩
    have := List.length_pos.mpr (List.ne_nil_of_mem this)
    omega

/-- C4: DELETE `/exam/:id` of an absent id responds 404 and leaves the exam
table unchanged; of a present id it responds 200 and removes exactly that
record (every other record survives, nothing else is added), so that any
subsequent listing of the resulting table excludes the deleted id. -/
theorem C4_delete (store : Store) (targetId : Int) (hW : WFStore store) :
    ((∀ e ∈ store, e.id ≠ targetId) →
      deleteExam store targetId =
        (⟨404, .jsonMessage "Exam not found"⟩, store)) ∧
    (∀ ex ∈ store, ex.id = targetId →
      (deleteExam store targetId).1 =
        ⟨200, .jsonMessage "Exam deleted successfully"⟩ ∧
      (deleteExam store targetId).2.length + 1 = store.length ∧
      (∀ e : Exam, e ∈ (deleteExam store targetId).2 ↔
        e ∈ store ∧ e.id ≠ targetId) ∧
      (∀ (page limit : Nat) (f : Option String),
        ∀ e ∈ (getExams (deleteExam store targetId).2 page limit f).items,
          e.id ≠ targetId)) := by
  constructor
  · intro habs
    have hf : store.find? (fun e => e.id == targetId) = none :=
      List.find?_eq_none.mpr fun x hx => by simp [habs x hx]
    unfold deleteExam
    rw [hf]
  · intro ex hex hid
    obtain ⟨y, hy⟩ : ∃ y, store.find? (fun e => e.id == targetId) = some y := by
      rw [← Option.isSome_iff_exists]
      exact List.find?_isSome.mpr ⟨ex, hex, by simp [hid]⟩
    have heq : deleteExam store targetId =
        (⟨200, .jsonMessage "Exam deleted successfully"⟩,
          store.filter (fun e => !(e.id == targetId))) := by
      unfold deleteExam
      rw [hy]
    have hmem : ∀ e : Exam, e ∈ (deleteExam store targetId).2 ↔
        e ∈ store ∧ e.id ≠ targetId := by
      intro e
      rw [heq]
      simp [List.mem_filter]
    refine ⟨by rw [heq], ?_, hmem, ?_⟩
    · rw [heq]
      show (store.filter (fun e => !(e.id == targetId))).length + 1 =
        store.length
      have hpart := length_filter_partition targetId store
      have h1 := length_filter_id_eq_one hW hex hid
      omega
    · intro page limit f e he
      have ht : e ∈ ((matchedExams (deleteExam store targetId).2 f).drop
          ((page - 1) * limit)).take limit := he
      have hd := List.drop_subset _ _ (List.take_subset _ _ ht)
      have hin : e ∈ (deleteExam store targetId).2 :=
        List.mem_of_mem_filter hd
      exact ((hmem e).mp hin).2

/-- Witness for C4: deleting the absent id 99 returns 404 and keeps the
table; deleting the present id 2 returns 200, shrinks the table by one, and
keeps exactly the records with a different id. -/
theorem C4_delete_witness :
    deleteExam [⟨1, "A", "d", "v", "t", 60⟩, ⟨2, "B", "d", "v", "t", 30⟩,
        ⟨3, "C", "d", "v", "t", 10⟩] 99 =
      (⟨404, .jsonMessage "Exam not found"⟩,
        [⟨1, "A", "d", "v", "t", 60⟩, ⟨2, "B", "d", "v", "t", 30⟩,
          ⟨3, "C", "d", "v", "t", 10⟩]) ∧
    (deleteExam [⟨1, "A", "d", "v", "t", 60⟩, ⟨2, "B", "d", "v", "t", 30⟩,
        ⟨3, "C", "d", "v", "t", 10⟩] 2).1 =
      ⟨200, .jsonMessage "Exam deleted successfully"⟩ ∧
    (deleteExam [⟨1, "A", "d", "v", "t", 60⟩, ⟨2, "B", "d", "v", "t", 30⟩,
        ⟨3, "C", "d", "v", "t", 10⟩] 2).2.length + 1 = 3 ∧
    ((⟨1, "A", "d", "v", "t", 60⟩ : Exam) ∈
      (deleteExam [⟨1, "A", "d", "v", "t", 60⟩, ⟨2, "B", "d", "v", "t", 30⟩,
        ⟨3, "C", "d", "v", "t", 10⟩] 2).2 ↔
      (⟨1, "A", "d", "v", "t", 60⟩ : Exam) ∈
        [⟨1, "A", "d", "v", "t", 60⟩, ⟨2, "B", "d", "v", "t", 30⟩,
          ⟨3, "C", "d", "v", "t", 10⟩] ∧
        (⟨1, "A", "d", "v", "t", 60⟩ : Exam).id ≠ 2) := by
  have h0 := C4_delete [⟨1, "A", "d", "v", "t", 60⟩,
    ⟨2, "B", "d", "v", "t", 30⟩, ⟨3, "C", "d", "v", "t", 10⟩] 99 (by decide)
  have h2 := (C4_delete [⟨1, "A", "d", "v", "t", 60⟩,
    ⟨2, "B", "d", "v", "t", 30⟩, ⟨3, "C", "d", "v", "t", 10⟩] 2
    (by decide)).2 ⟨2, "B", "d", "v", "t", 30⟩ (by decide) (by decide)
  exact ⟨h0.1 (by decide), h2.1, h2.2.1, h2.2.2.1 _⟩

/-- C5: for every filter and store state, the CSV export (direct
OR-of-substrings where-clause) and the spreadsheet export (two-phase
identifier-set resolution) select exactly the same records — even as lists,
hence in particular the same ids. -/
theorem C5_export_refinement (store : Store) (filter : Option String)
    (hW : WFStore store) :
    csvExams store filter = exportExams store filter ∧
    (csvExams store filter).map Exam.id =
      (exportExams store filter).map Exam.id := by
  have hmain : csvExams store filter = exportExams store filter := by
    cases filter with
    | none =>
      exact List.filter_congr fun e _ => rfl
    | some f =>
      by_cases hf : f = ""
      · subst hf
        exact List.filter_congr fun e _ => rfl
      · have h1 : exportExams store (some f) =
            store.filter (matchesFilter f) := matchedExams_filter hW hf
        have h2 : csvExams store (some f) =
            store.filter (matchesFilter f) := by
          unfold csvExams
          exact List.filter_congr fun e _ => by simp [csvWhereTest, hf]
        rw [h1, h2]
  exact ⟨hmain, by rw [hmain]⟩

/-- Witness for C5 on a concrete store and a filter that matches by venue
and description. -/
theorem C5_export_refinement_witness :
    csvExams [⟨1, "Exam-1", "Desc one", "Venue-7", "t", 60⟩,
        ⟨2, "Exam-2", "has venue-7 inside", "Hall", "t", 30⟩,
        ⟨3, "Other", "x", "y", "t", 10⟩] (some "Venue-7") =
      exportExams [⟨1, "Exam-1", "Desc one", "Venue-7", "t", 60⟩,
        ⟨2, "Exam-2", "has venue-7 inside", "Hall", "t", 30⟩,
        ⟨3, "Other", "x", "y", "t", 10⟩] (some "Venue-7") ∧
    (csvExams [⟨1, "Exam-1", "Desc one", "Venue-7", "t", 60⟩,
        ⟨2, "Exam-2", "has venue-7 inside", "Hall", "t", 30⟩,
        ⟨3, "Other", "x", "y", "t", 10⟩] (some "Venue-7")).map Exam.id =
      (exportExams [⟨1, "Exam-1", "Desc one", "Venue-7", "t", 60⟩,
        ⟨2, "Exam-2", "has venue-7 inside", "Hall", "t", 30⟩,
        ⟨3, "Other", "x", "y", "t", 10⟩] (some "Venue-7")).map Exam.id :=
  C5_export_refinement [⟨1, "Exam-1", "Desc one", "Venue-7", "t", 60⟩,
    ⟨2, "Exam-2", "has venue-7 inside", "Hall", "t", 30⟩,
    ⟨3, "Other", "x", "y", "t", 10⟩] (some "Venue-7") (by decide)

/-- Counterexample to C6 as stated: the missing-file branch of POST
`/upload-image` responds 400 with the bare string body "Upload failed",
which is not a JSON object of shape error-string or message-string. -/
theorem C6_counterexample :
    uploadImage none = ⟨400, .text "Upload failed"⟩ ∧
    errorShaped (uploadImage none).body = false := by
  exact ⟨rfl, rfl⟩

/-- C6 amended: every error response of every endpoint — the 500 catch
responses of the listing, both exports, and exam creation, the 404 and 500
responses of exam deletion, and the 400 and 500 responses of question
creation — is a JSON body of shape error-string or message-string with
status 400, 404 or 500; the one exception is the missing-file branch of
POST `/upload-image`, which responds with the client-error status 400 but a
bare text body "Upload failed" instead of a JSON object of that shape. -/
theorem C6_error_shape (se₁ se₂ se₃ se₄ : Option String) (store : Store)
    (page limit : Nat) (filter : Option String) (targetId : Int)
    (st : QStore) (body : QuestionBody)
    (create : ExamBody → Except String Exam) (eb : ExamBody)
    (f : UploadedFile) :
    respOk (getExamsRoute se₁ store page limit filter) ∧
    respOk (exportExamsRoute se₂ store filter) ∧
    respOk (csvExportRoute se₃ store filter) ∧
    respOk (postExams create eb) ∧
    respOk (deleteExamRoute se₄ store targetId) ∧
    respOk (postQuestion st body).1 ∧
    respOk (uploadImage (some f)) ∧
    uploadImage none = ⟨400, .text "Upload failed"⟩ ∧
    errorShaped (uploadImage none).body = false := by
  refine ⟨?_, ?_, ?_, ?_, ?_, ?_, Or.inl (Or.inl rfl), rfl, rfl⟩
  · cases se₁ with
    | none => exact Or.inl (Or.inl rfl)
    | some msg => exact Or.inr ⟨rfl, Or.inr (Or.inr rfl)⟩
  · cases se₂ with
    | none => exact Or.inl (Or.inl rfl)
    | some msg => exact Or.inr ⟨rfl, Or.inr (Or.inr rfl)⟩
  · cases se₃ with
    | none => exact Or.inl (Or.inl rfl)
    | some msg => exact Or.inr ⟨rfl, Or.inr (Or.inr rfl)⟩
  · unfold postExams
    cases create eb with
    | ok exam => exact Or.inl (Or.inl rfl)
    | error msg => exact Or.inr ⟨rfl, Or.inr (Or.inr rfl)⟩
  · cases se₄ with
    | some msg => exact Or.inr ⟨rfl, Or.inr (Or.inr rfl)⟩
    | none =>
      show respOk (deleteExam store targetId).1
      unfold deleteExam
      cases store.find? (fun e => e.id == targetId) with
      | none => exact Or.inr ⟨rfl, Or.inr (Or.inl rfl)⟩
      | some y => exact Or.inl (Or.inl rfl)
  · cases hb : body.answer with
    | none =>
      have heq : postQuestion st body =
          (⟨400, .jsonError "Answer array is not in the expected format."⟩,
            st) := by
        unfold postQuestion; rw [hb]
      rw [heq]
      exact Or.inr ⟨rfl, Or.inl rfl⟩
    | some items =>
      by_cases hlen : items.length = 4
      · cases hv : validateAnswer items with
        | some resp =>
          have heq : (postQuestion st body).1 = resp := by
            unfold postQuestion; rw [hb]; simp [hlen, hv]
          rw [heq]
          rcases validateAnswer_some items resp hv with h | h <;> rw [h]
          · exact Or.inr ⟨rfl, Or.inr (Or.inr rfl)⟩
          · exact Or.inr ⟨rfl, Or.inl rfl⟩
        | none =>
          have heq : (postQuestion st body).1.status = 201 := by
            unfold postQuestion; rw [hb]; simp [hlen, hv]
          exact Or.inl (Or.inr heq)
      · have heq : (postQuestion st body).1 =
            ⟨400, .jsonError
              "Answer array is not in the expected format."⟩ := by
          unfold postQuestion; rw [hb]; simp [hlen]
        rw [heq]
        exact Or.inr ⟨rfl, Or.inl rfl⟩

/-- C8: a page or limit parameter whose text coerces to `NaN` flows into
the store query as `NaN` skip and take, unguarded; absent parameters take
the numeric defaults 1 and 10 (giving skip 0 and take 10). -/
theorem C8_nan_propagation (coerce : String → JSNum)
    (pq lq : Option String) (sp sl : String) :
    examsStoreQuery coerce none none = ⟨.num 0, .num 10⟩ ∧
    (pq = some sp → coerce sp = .nan →
      (examsStoreQuery coerce pq lq).skip = .nan) ∧
    (lq = some sl → coerce sl = .nan →
      (examsStoreQuery coerce pq lq).skip = .nan ∧
      (examsStoreQuery coerce pq lq).take = .nan) := by
  have hskip : ∀ (p l : Option String), (examsStoreQuery coerce p l).skip =
      jsMul (jsSub (coerceOr coerce 1 p) (JSNum.num 1))
        (coerceOr coerce 10 l) := fun _ _ => rfl
  have htake : ∀ (p l : Option String), (examsStoreQuery coerce p l).take =
      coerceOr coerce 10 l := fun _ _ => rfl
  refine ⟨?_, ?_, ?_⟩
  · have h1 : ((1 : ℚ) - 1) * 10 = 0 := by norm_num
    calc examsStoreQuery coerce none none
        = ⟨JSNum.num (((1 : ℚ) - 1) * 10), JSNum.num 10⟩ := rfl
      _ = ⟨JSNum.num 0, JSNum.num 10⟩ := by rw [h1]
  · intro hp hc
    subst hp
    rw [hskip]
    show jsMul (jsSub (coerce sp) (JSNum.num 1)) _ = JSNum.nan
    rw [hc]
    cases coerceOr coerce 10 lq <;> rfl
  · intro hl hc
    subst hl
    constructor
    · rw [hskip]
      show jsMul _ (coerce sl) = JSNum.nan
      rw [hc]
      cases jsSub (coerceOr coerce 1 pq) (JSNum.num 1) <;> rfl
    · rw [htake]
      exact hc

/-- Witness for C8: the literal coercion result `NaN` for a supplied
non-numeric page and limit yields `NaN` skip and take. -/
theorem C8_nan_propagation_witness :
    examsStoreQuery (fun _ => JSNum.nan) none none = ⟨.num 0, .num 10⟩ ∧
    (examsStoreQuery (fun _ => JSNum.nan) (some "abc")
      (some "xyz")).skip = .nan ∧
    (examsStoreQuery (fun _ => JSNum.nan) (some "abc")
      (some "xyz")).take = .nan := by
  have h := C8_nan_propagation (fun _ => JSNum.nan) (some "abc")
    (some "xyz") "abc" "xyz"
  obtain ⟨hsl, htk⟩ := h.2.2 rfl rfl
  exact ⟨h.1, hsl, htk⟩

/-- C9: POST `/exams` forwards the body to the store's create call
untouched; a store error surfaces as 500 carrying the store's message, a
store success as the created record; the handler never answers 400, and in
particular a body missing a required column is answered 500 via the
modelled store validation. -/
theorem C9_create_passthrough (create : ExamBody → Except String Exam)
    (body : ExamBody) (nextId : Int) :
    (∀ msg, create body = .error msg →
      postExams create body = ⟨500, .jsonError msg⟩) ∧
    (∀ exam, create body = .ok exam →
      postExams create body = ⟨200, .jsonExam exam⟩) ∧
    (postExams create body).status ≠ 400 ∧
    (body.name = none →
      (postExams (examCreate nextId) body).status = 500 ∧
      errorShaped (postExams (examCreate nextId) body).body = true) := by
  refine ⟨?_, ?_, ?_, ?_⟩
  · intro msg h
    unfold postExams
    rw [h]
  · intro exam h
    unfold postExams
    rw [h]
  · unfold postExams
    cases create body <;> simp
  · intro hn
    obtain ⟨name, d, v, t, du, u⟩ := body
    simp only at hn
    subst hn
    by_cases hu : u = []
    · subst hu
      exact ⟨rfl, rfl⟩
    · have hend : examCreate nextId ⟨none, d, v, t, du, u⟩ =
          .error "Unknown argument in create call." := by
        unfold examCreate
        rw [if_pos (by simpa using hu)]
      unfold postExams
      rw [hend]
      exact ⟨rfl, rfl⟩

/-- Witness for C9: a body missing the name column is answered 500 with
the store's message, not 400. -/
theorem C9_create_passthrough_witness :
    postExams (examCreate 5)
      ⟨none, some "d", some "v", some "t", some 60, []⟩ =
      ⟨500, .jsonError "Missing a required argument in create call."⟩ ∧
    (postExams (examCreate 5)
      ⟨none, some "d", some "v", some "t", some 60, []⟩).status ≠ 400 := by
  have h := C9_create_passthrough (examCreate 5)
    ⟨none, some "d", some "v", some "t", some 60, []⟩ 5
  exact ⟨h.1 "Missing a required argument in create call." rfl, h.2.2.1⟩

/-- C10: the CSV export renders all six record fields with a header derived
from the record keys, while the spreadsheet export carries only the four
fixed columns (same keys, same order, as a prefix), so the two agree on the
id cell of every row and the CSV carries exactly the two extra columns
time and duration. -/
theorem C10_export_columns (exams : List Exam) :
    csvKeys = sheetColumns.map Prod.snd ++ ["time", "duration"] ∧
    csvTable exams = csvKeys :: exams.map csvRow ∧
    (∀ e ∈ exams, (csvRow e).length = 6 ∧ (sheetRow e).length = 4) ∧
    (∀ e ∈ exams, (sheetRow e).map cellToString = (csvRow e).take 4) ∧
    (sheetRows exams).map (fun r => r.head?.map cellToString) =
      (exams.map csvRow).map List.head? ∧
    (exams.map csvRow).map List.head? =
      exams.map (fun e => some (toString e.id)) := by
  refine ⟨rfl, rfl, fun e _ => ⟨rfl, rfl⟩, fun e _ => rfl, ?_, ?_⟩
  · induction exams with
    | nil => rfl
    | cons a l ih =>
      have hhead : Option.map cellToString (sheetRow a).head? =
          (csvRow a).head? := rfl
      simp only [sheetRows, List.map_cons, hhead] at ih ⊢
      rw [ih]
  · induction exams with
    | nil => rfl
    | cons a l ih =>
      simp only [List.map_cons]
      rw [ih]
      rfl

/-- Witness for C10 on a concrete two-record list. -/
theorem C10_export_columns_witness :
    csvKeys = sheetColumns.map Prod.snd ++ ["time", "duration"] ∧
    (([⟨1, "A", "d", "v", "t", 60⟩, ⟨2, "B", "e", "w", "u", 30⟩] :
        List Exam).map csvRow).map List.head? =
      ([⟨1, "A", "d", "v", "t", 60⟩, ⟨2, "B", "e", "w", "u", 30⟩] :
        List Exam).map (fun e => some (toString e.id)) := by
  have h := C10_export_columns ([⟨1, "A", "d", "v", "t", 60⟩,
    ⟨2, "B", "e", "w", "u", 30⟩] : List Exam)
  exact ⟨h.1, h.2.2.2.2.2⟩

lemma toDigitsCore_append (b : Nat) :
    ∀ (f n : Nat) (acc : List Char),
      Nat.toDigitsCore b f n acc = Nat.toDigitsCore b f n [] ++ acc := by
  intro f
  induction f with
  | zero => intro n acc; rfl
  | succ f ih =>
    intro n acc
    simp only [Nat.toDigitsCore]
    by_cases h : n / b = 0
    · simp [h]
    · rw [if_neg h, if_neg h, ih (n / b) (Nat.digitChar (n % b) :: acc),
        ih (n / b) [Nat.digitChar (n % b)]]
      simp

lemma digitsToNat_append (l : List Char) (c : Char) :
    digitsToNat (l ++ [c]) = 10 * digitsToNat l + charVal c := by
  simp [digitsToNat, List.foldl_append]

lemma charVal_digitChar {d : Nat} (h : d < 10) :
    charVal (Nat.digitChar d) = d := by
  interval_cases d <;> rfl

lemma digitsToNat_toDigitsCore :
    ∀ (f n : Nat), n < 10 ^ f →
      digitsToNat (Nat.toDigitsCore 10 f n []) = n := by
  intro f
  induction f with
  | zero =>
    intro n h
    have hn : n = 0 := by simpa using h
    subst hn
    rfl
  | succ f ih =>
    intro n h
    have hmod : n % 10 < 10 := Nat.mod_lt _ (by norm_num)
    simp only [Nat.toDigitsCore]
    by_cases h0 : n / 10 = 0
    · rw [if_pos h0]
      have hn : n < 10 := by
        have hdm := Nat.div_add_mod n 10
        rw [h0] at hdm
        omega
      have hmn : n % 10 = n := Nat.mod_eq_of_lt hn
      show digitsToNat [Nat.digitChar (n % 10)] = n
      simp only [digitsToNat, List.foldl_cons, List.foldl_nil]
      rw [charVal_digitChar hmod]
      omega
    · rw [if_neg h0,
        toDigitsCore_append 10 f (n / 10) [Nat.digitChar (n % 10)],
        digitsToNat_append]
      have hdiv : n / 10 < 10 ^ f := by
        rw [Nat.div_lt_iff_lt_mul (by norm_num)]
        calc n < 10 ^ (f + 1) := h
          _ = 10 ^ f * 10 := by rw [Nat.pow_succ]
      rw [ih (n / 10) hdiv, charVal_digitChar hmod]
      exact Nat.div_add_mod n 10

lemma natRepr_inj {m n : Nat} (h : Nat.repr m = Nat.repr n) : m = n := by
  have has : ∀ l : List Char, (List.asString l).data = l := fun _ => rfl
  have h2 := congrArg String.data h
  simp only [Nat.repr, has] at h2
  have hm : m < 10 ^ (m + 1) :=
    lt_of_lt_of_le (Nat.lt_pow_self (by norm_num) m)
      (Nat.pow_le_pow_right (by norm_num) (Nat.le_succ m))
  have hn : n < 10 ^ (n + 1) :=
    lt_of_lt_of_le (Nat.lt_pow_self (by norm_num) n)
      (Nat.pow_le_pow_right (by norm_num) (Nat.le_succ n))
  have e1 : digitsToNat (Nat.toDigits 10 m) = m :=
    digitsToNat_toDigitsCore (m + 1) m hm
  have e2 : digitsToNat (Nat.toDigits 10 n) = n :=
    digitsToNat_toDigitsCore (n + 1) n hn
  calc m = digitsToNat (Nat.toDigits 10 m) := e1.symm
    _ = digitsToNat (Nat.toDigits 10 n) := by rw [h2]
    _ = n := e2

lemma extnameChars_suffix (l : List Char) : extnameChars l <:+ l := by
  unfold extnameChars
  by_cases hdd : l = ['.', '.']
  · rw [if_pos hdd]
    exact List.nil_suffix
  · rw [if_neg hdd]
    cases h : lastDotIdx l with
    | none => exact List.nil_suffix
    | some i =>
      cases i with
      | zero => exact List.nil_suffix
      | succ j => exact List.drop_suffix _ _

lemma removeFirst_of_unique_suffix :
    ∀ (s pat : List Char), pat ≠ [] → pat <:+ s →
      ¬ (pat <:+: s.dropLast) →
      removeFirst s pat = s.take (s.length - pat.length) := by
  intro s
  induction s with
  | nil =>
    intro pat hne hsuf _
    exact absurd (List.suffix_nil.mp hsuf) hne
  | cons c rest ih =>
    intro pat hne hsuf hnot
    by_cases hp : pat.isPrefixOf (c :: rest)
    · have hpre : pat <+: c :: rest := List.isPrefixOf_iff_prefix.mp hp
      rcases Nat.lt_or_ge pat.length (c :: rest).length with hlt | hge
      · exfalso
        apply hnot
        have hple : pat.length ≤ (c :: rest).length - 1 := by
          simp only [List.length_cons] at hlt ⊢
          omega
        have hpt : pat = (c :: rest).take pat.length :=
          List.prefix_iff_eq_take.mp hpre
        have htk : pat <+: (c :: rest).take ((c :: rest).length - 1) := by
          conv_lhs => rw [hpt]
          exact List.take_prefix_take_left _ hple
        rw [List.dropLast_eq_take]
        exact htk.isInfix
      · have hlen : pat.length = (c :: rest).length :=
          Nat.le_antisymm hpre.length_le hge
        have hpeq : pat = c :: rest := hpre.eq_of_length hlen
        simp only [removeFirst]
        rw [if_pos hp, hpeq]
        simp
    · have hsr : pat <:+ rest := by
        rcases List.suffix_cons_iff.mp hsuf with heq | hh
        · exact absurd (List.isPrefixOf_iff_prefix.mpr
            (heq ▸ List.prefix_refl (c :: rest))) hp
        · exact hh
      have hrne : rest ≠ [] := by
        intro h0
        rw [h0] at hsr
        exact hne (List.suffix_nil.mp hsr)
      have hnotr : ¬ (pat <:+: rest.dropLast) := by
        intro hi
        apply hnot
        have hdl : (c :: rest).dropLast = c :: rest.dropLast := by
          cases rest with
          | nil => exact absurd rfl hrne
          | cons b t => rfl
        rw [hdl]
        exact List.infix_cons hi
      have hplen : pat.length ≤ rest.length := hsr.length_le
      simp only [removeFirst]
      rw [if_neg hp, ih pat hne hsr hnotr]
      have hlc : (c :: rest).length - pat.length =
          (rest.length - pat.length) + 1 := by
        simp only [List.length_cons]
        omega
      rw [hlc, List.take_succ_cons]

/-- Counterexample to C7 as stated: for the original name "a.pngb.png" the
handler removes the first occurrence of the extension ".png", not the
trailing one, so the stored name "ab.png-1000.png" does not begin with the
original base name "a.pngb". -/
theorem C7_counterexample :
    uploadFilename "a.pngb.png" 1000 = "ab.png-1000.png" ∧
    specBaseName "a.pngb.png" = "a.pngb" ∧
    ¬ ((specBaseName "a.pngb.png").data <+:
      (uploadFilename "a.pngb.png" 1000).data) := by
  exact ⟨by decide, by decide, by decide⟩

/-- C7 amended: the stored filename is the original name with the first
occurrence of its extension removed, then a hyphen, the millisecond
timestamp, then the extension; when the name has an extension and that
extension occurs in it only as the trailing suffix, this equals base name,
hyphen, timestamp, extension; distinct timestamps always yield distinct
stored names for the same original name; and the response URL joins the
fixed uploads directory with the stored name. -/
theorem C7_amended (name : String) (ts₁ ts₂ : Nat) (f : UploadedFile) :
    (extnameChars name.data ≠ [] →
      ¬ (extnameChars name.data <:+: name.data.dropLast) →
      uploadFilename name ts₁ =
        specBaseName name ++ "-" ++ toString ts₁ ++
          String.mk (extnameChars name.data)) ∧
    uploadImage (some f) =
      ⟨200, .jsonUrl ("http://localhost:3000/uploads/" ++ f.filename)⟩ ∧
    (uploadFilename name ts₁ = uploadFilename name ts₂ → ts₁ = ts₂) := by
  refine ⟨?_, rfl, ?_⟩
  · intro hne hocc
    show String.mk (removeFirst name.data (extnameChars name.data)) ++ "-" ++
      toString ts₁ ++ String.mk (extnameChars name.data) = _
    rw [removeFirst_of_unique_suffix name.data (extnameChars name.data) hne
      (extnameChars_suffix _) hocc]
    rfl
  · intro hcol
    have hmk : ∀ l : List Char, (String.mk l).data = l := fun _ => rfl
    have hcol' : String.mk (removeFirst name.data (extnameChars name.data))
        ++ "-" ++ toString ts₁ ++ String.mk (extnameChars name.data) =
        String.mk (removeFirst name.data (extnameChars name.data)) ++ "-" ++
          toString ts₂ ++ String.mk (extnameChars name.data) := hcol
    have hd := congrArg String.data hcol'
    simp only [String.data_append, List.append_assoc, hmk] at hd
    have h1 := List.append_cancel_left hd
    have h2 := List.append_cancel_left h1
    have h3 := List.append_cancel_right h2
    have h4 : Nat.repr ts₁ = Nat.repr ts₂ := String.ext h3
    exact natRepr_inj h4

/-- Witness for C7 amended: for "photo.png" (whose extension occurs only as
the trailing suffix) the stored name is base, hyphen, timestamp,
extension. -/
theorem C7_amended_witness :
    uploadFilename "photo.png" 1700000000000 =
      specBaseName "photo.png" ++ "-" ++ toString 1700000000000 ++
        String.mk (extnameChars ("photo.png").data) ∧
    uploadImage (some ⟨"photo.png", "photo-1700000000000.png"⟩) =
      ⟨200, .jsonUrl
        "http://localhost:3000/uploads/photo-1700000000000.png"⟩ := by
  have h := C7_amended "photo.png" 1700000000000 1
    ⟨"photo.png", "photo-1700000000000.png"⟩
  exact ⟨h.1 (by decide) (by decide), h.2.1⟩

end Epks

